import Mathlib

/-!
Verification of the membry-project-management scheduling engine.

This file shallowly embeds the engine's data model and the operations of
`PhaseManager` (src/workflows/phase-manager.ts), `TaskDecomposer`
(src/services/task-decomposer.ts) and `MemberManager`
(src/services/member-manager.ts), and proves the stated testable
properties about them.

Modelling conventions:
- TypeScript numbers are modelled as `Rat` (exact rational arithmetic);
  task `progress` values are `Int`.  `Math.round` is modelled as
  `jsRound x = ⌊x + 1/2⌋`, which agrees with JavaScript's round-half-up
  semantics on all rationals.
- Optional fields become `Option`; `Date` values are abstracted as `Nat`
  timestamps supplied as an explicit `now` parameter.
- In-place mutation of the member store (a `Map` keyed by member id) is
  modelled by explicit state passing over a `List Member` whose ids are
  assumed distinct where a theorem needs it (`Map` keys are unique).
- Fields the embedded operations never read (Lark message ids, avatar
  URLs, task dates) are omitted from the structures.
-/

namespace Membry

/-- Project phases, in workflow order (enum `ProjectPhase`). -/
inductive ProjectPhase where
  | SALES
  | DESIGN
  | MANUFACTURING
  | CONSTRUCTION
deriving DecidableEq, Repr

/-- Task statuses (enum `TaskStatus`). -/
inductive TaskStatus where
  | NOT_STARTED
  | IN_PROGRESS
  | BLOCKED
  | COMPLETED
  | CANCELLED
deriving DecidableEq, Repr

/-- Task priorities (enum `TaskPriority`). -/
inductive TaskPriority where
  | LOW
  | MEDIUM
  | HIGH
  | CRITICAL
deriving DecidableEq, Repr

/-- Member skills (enum `MemberSkill`). -/
inductive MemberSkill where
  | SALES
  | DESIGN
  | MANUFACTURING
  | CONSTRUCTION
  | PROJECT_MANAGEMENT
  | QUALITY_ASSURANCE
deriving DecidableEq, Repr

/-- The string value of each `ProjectPhase` enum constant, as used when a
phase is interpolated into an id or message string in TypeScript. -/
def phaseKey : ProjectPhase → String
  | .SALES => "sales"
  | .DESIGN => "design"
  | .MANUFACTURING => "manufacturing"
  | .CONSTRUCTION => "construction"

/-- The fields of a `Task` (interface `Task`), parameterised by the type of
the subtask list so that `Task` itself can be formed as a nested inductive. -/
structure TaskF (σ : Type) where
  id : String
  title : String
  description : String
  phase : ProjectPhase
  status : TaskStatus
  priority : TaskPriority
  assignee : Option String
  assigneeId : Option String
  dependencies : List String
  subtasks : List σ
  progress : Int
  estimatedHours : Option Rat
  actualHours : Option Rat
  tags : List String

/-- A task with its (finitely nested) subtasks. -/
inductive Task where
  | mk : TaskF Task → Task

/-- Unfold a task into its field record. -/
def Task.out : Task → TaskF Task
  | .mk f => f

def Task.id (t : Task) : String := t.out.id

def Task.title (t : Task) : String := t.out.title

def Task.phase (t : Task) : ProjectPhase := t.out.phase

def Task.status (t : Task) : TaskStatus := t.out.status

def Task.priority (t : Task) : TaskPriority := t.out.priority

def Task.assignee (t : Task) : Option String := t.out.assignee

def Task.dependencies (t : Task) : List String := t.out.dependencies

def Task.subtasks (t : Task) : List Task := t.out.subtasks

def Task.progress (t : Task) : Int := t.out.progress

def Task.estimatedHours (t : Task) : Option Rat := t.out.estimatedHours

def Task.tags (t : Task) : List String := t.out.tags

/-- Aggregated per-phase information (interface `PhaseInfo`). -/
structure PhaseInfo where
  phase : ProjectPhase
  name : String
  status : TaskStatus
  startDate : Option Nat
  endDate : Option Nat
  progress : Int
  tasks : List String
  responsible : Option String

/-- Project status union type. -/
inductive ProjectStatus where
  | active
  | completed
  | on_hold
  | cancelled
deriving DecidableEq, Repr

/-- A project (interface `Project`); `phases` always has all four keys, so it
is modelled as a total function. -/
structure Project where
  id : String
  name : String
  description : String
  status : ProjectStatus
  phases : ProjectPhase → PhaseInfo
  tasks : List Task
  startDate : Nat
  targetEndDate : Nat

/-- Workflow configuration (interface `WorkflowConfig`); `approvers` is a
partial map from phase to approver list. -/
structure WorkflowConfig where
  autoTransition : Bool
  requireApproval : Bool
  approvers : ProjectPhase → Option (List String)

/-- A member of the roster (interface `Member`); Lark-specific display
fields are omitted. -/
structure Member where
  id : String
  name : String
  email : String
  skills : List MemberSkill
  availability : Rat
  currentLoad : Rat
  assignedTasks : List String

/-- `Math.round` on exact rationals: round half away from zero upwards,
i.e. `⌊x + 1/2⌋`, matching JavaScript's `Math.round`. -/
def jsRound (x : Rat) : Int := ⌊x + 1 / 2⌋

/-- JavaScript string falsiness: `!s` is true for `undefined` and `""`. -/
def jsStrFalsy : Option String → Bool
  | none => true
  | some s => s = ""

/-! ## PhaseManager (src/workflows/phase-manager.ts) -/

/-- A standard-task template entry (`PHASE_TEMPLATES` element). -/
structure TaskTemplate where
  name : String
  description : String
  estimatedHours : Option Rat

/-- `PhaseManager.PHASE_ORDER`. -/
def PHASE_ORDER : List ProjectPhase :=
  [ProjectPhase.SALES, ProjectPhase.DESIGN, ProjectPhase.MANUFACTURING,
   ProjectPhase.CONSTRUCTION]

/-- `PhaseManager.PHASE_TEMPLATES`: the fixed per-phase standard task list. -/
def PHASE_TEMPLATES : ProjectPhase → List TaskTemplate
  | .SALES =>
    [⟨"顧客ヒアリング", "要件と予算の確認", some 4⟩,
     ⟨"見積書作成", "詳細見積もりの作成", some 8⟩,
     ⟨"プレゼンテーション", "提案資料の作成と提示", some 6⟩,
     ⟨"契約締結", "契約書の作成と締結", some 4⟩,
     ⟨"キックオフミーティング", "プロジェクト開始会議", some 2⟩]
  | .DESIGN =>
    [⟨"基本設計", "全体構想と基本仕様の策定", some 40⟩,
     ⟨"詳細設計", "詳細仕様書の作成", some 80⟩,
     ⟨"図面作成", "設計図面の作成", some 60⟩,
     ⟨"設計レビュー", "社内レビューと顧客確認", some 8⟩,
     ⟨"設計承認", "最終設計の承認取得", some 4⟩]
  | .MANUFACTURING =>
    [⟨"材料調達", "必要材料の発注と手配", some 16⟩,
     ⟨"製造計画", "製造スケジュールと工程計画", some 8⟩,
     ⟨"製造実行", "実際の製造作業", some 160⟩,
     ⟨"品質検査", "中間検査と最終検査", some 16⟩,
     ⟨"梱包・出荷準備", "完成品の梱包と出荷手配", some 8⟩]
  | .CONSTRUCTION =>
    [⟨"現場準備", "施工に必要な準備作業", some 16⟩,
     ⟨"施工実行", "実際の施工作業", some 200⟩,
     ⟨"中間検査", "施工中の品質確認", some 8⟩,
     ⟨"最終検査", "完成後の総合検査", some 8⟩,
     ⟨"引き渡し", "顧客への引き渡しと説明", some 4⟩,
     ⟨"アフターフォロー", "施工後のサポート対応", some 8⟩]

/-- The deterministic standard-task id: `{projectId}-{phase}-{n}`. -/
def mkTaskId (projectId : String) (phase : ProjectPhase) (n : Nat) : String :=
  projectId ++ "-" ++ phaseKey phase ++ "-" ++ toString n

/-- `PhaseManager.generateStandardTasks`.  For each phase in `PHASE_ORDER`
each template becomes a task; a task at index `> 0` first pushes a
dependency on the preceding task of its phase, and every task of a
non-`SALES` phase then pushes a dependency on the last task of the
immediately preceding phase. -/
def generateStandardTasks (project : Project) : List Task :=
  (PHASE_ORDER.map (fun phase =>
    (PHASE_TEMPLATES phase).enum.map (fun p =>
      let index := p.1
      let template := p.2
      let intraDeps : List String :=
        if 0 < index then [mkTaskId project.id phase index] else []
      let crossDeps : List String :=
        if phase ≠ ProjectPhase.SALES then
          let prevPhaseIndex := PHASE_ORDER.indexOf phase - 1
          let prevPhase := PHASE_ORDER.getD prevPhaseIndex ProjectPhase.SALES
          [mkTaskId project.id prevPhase (PHASE_TEMPLATES prevPhase).length]
        else []
      Task.mk
        { id := mkTaskId project.id phase (index + 1)
          title := template.name
          description := template.description
          phase := phase
          status := TaskStatus.NOT_STARTED
          priority := TaskPriority.MEDIUM
          assignee := none
          assigneeId := none
          dependencies := intraDeps ++ crossDeps
          subtasks := []
          progress := 0
          estimatedHours := template.estimatedHours
          actualHours := none
          tags := [phaseKey phase] }))).flatten

/-- `PhaseManager.calculatePhaseProgress`: rounded mean progress of the
tasks of the phase; `0` when the phase has no tasks. -/
def calculatePhaseProgress (phase : ProjectPhase) (tasks : List Task) : Int :=
  let phaseTasks := tasks.filter (fun t => decide (t.phase = phase))
  if phaseTasks.length = 0 then 0
  else
    let totalProgress : Int := phaseTasks.foldl (fun sum t => sum + t.progress) 0
    jsRound ((totalProgress : Rat) / (phaseTasks.length : Rat))

/-- `PhaseManager.updatePhaseStatus`: recompute a phase's progress and
derive its status from its tasks' statuses. -/
def updatePhaseStatus (phaseInfo : PhaseInfo) (tasks : List Task) : PhaseInfo :=
  let progress := calculatePhaseProgress phaseInfo.phase tasks
  let phaseTasks := tasks.filter (fun t => decide (t.phase = phaseInfo.phase))
  let status : TaskStatus :=
    if phaseTasks.all (fun t => decide (t.status = TaskStatus.COMPLETED)) then
      TaskStatus.COMPLETED
    else if phaseTasks.any (fun t => decide (t.status = TaskStatus.IN_PROGRESS)) then
      TaskStatus.IN_PROGRESS
    else if phaseTasks.any (fun t => decide (t.status = TaskStatus.BLOCKED)) then
      TaskStatus.BLOCKED
    else if phaseTasks.any (fun t => decide (t.status = TaskStatus.COMPLETED)) then
      TaskStatus.IN_PROGRESS
    else
      TaskStatus.NOT_STARTED
  { phaseInfo with progress := progress, status := status }

/-- `PhaseManager.canTransitionToNextPhase`: all tasks of the current phase
must be `COMPLETED`. -/
def canTransitionToNextPhase (currentPhase : ProjectPhase) (tasks : List Task) : Bool :=
  (tasks.filter (fun t => decide (t.phase = currentPhase))).all
    (fun t => decide (t.status = TaskStatus.COMPLETED))

/-- The result record of `PhaseManager.transitionToNextPhase`. -/
structure TransitionResult where
  success : Bool
  nextPhase : Option ProjectPhase
  message : String

/-- `PhaseManager.transitionToNextPhase`.  The asynchronous approval
callback is modelled as an optional boolean-valued function, and the
`new Date()` stamp as the explicit `now` timestamp.  Returns the updated
project together with the structured result (the source mutates
`project.phases` in place). -/
def transitionToNextPhase (config : WorkflowConfig) (project : Project)
    (currentPhase : ProjectPhase)
    (onApprovalRequired : Option (ProjectPhase → List String → Bool))
    (now : Nat) : Project × TransitionResult :=
  let currentIndex := PHASE_ORDER.indexOf currentPhase
  if currentIndex = PHASE_ORDER.length - 1 then
    (project, ⟨false, none, "既に最終フェーズです"⟩)
  else if ¬ canTransitionToNextPhase currentPhase project.tasks then
    (project, ⟨false, none, "現在のフェーズの全タスクが完了していません"⟩)
  else
    let nextPhase := PHASE_ORDER.getD (currentIndex + 1) currentPhase
    let approved : Bool :=
      if config.requireApproval ∧ (config.approvers nextPhase).isSome then
        match onApprovalRequired with
        | some callback => callback nextPhase ((config.approvers nextPhase).getD [])
        | none => true
      else true
    if approved then
      ({ project with
          phases := fun p =>
            if p = nextPhase then
              { project.phases nextPhase with startDate := some now }
            else project.phases p },
       ⟨true, some nextPhase,
        phaseKey currentPhase ++ "から" ++ phaseKey nextPhase ++ "へ遷移しました"⟩)
    else
      (project, ⟨false, none, phaseKey nextPhase ++ "フェーズへの遷移が承認されませんでした"⟩)

/-- The phase-order successor as computed by `transitionToNextPhase`
(`PHASE_ORDER[currentIndex + 1]`); the terminal phase, which the source
rejects before indexing, maps to itself. -/
def nextPhaseInOrder (p : ProjectPhase) : ProjectPhase :=
  PHASE_ORDER.getD (PHASE_ORDER.indexOf p + 1) p

/-- `PhaseManager.calculateOverallProgress`: rounded mean of the four
phases' progress values (`Object.values(project.phases)` enumerates the
four phase entries in declaration order). -/
def calculateOverallProgress (project : Project) : Int :=
  let phaseProgresses := PHASE_ORDER.map (fun ph => (project.phases ph).progress)
  if phaseProgresses.length = 0 then 0
  else
    jsRound (((phaseProgresses.foldl (fun sum p => sum + p) 0 : Int) : Rat) /
      (phaseProgresses.length : Rat))

/-- `PhaseManager.findLongestPath`: follow forward edges (tasks listing the
current task as a dependency), keeping the longest successor chain.  The
TypeScript recursion is unbounded (it diverges on cyclic dependency
graphs); here it is bounded by a fuel parameter, which
`calculateCriticalPath` instantiates large enough to be exact on acyclic
inputs (a dependency chain never revisits a task unless the graph has a
cycle, so chains have at most `tasks.length` nodes). -/
def findLongestPath (fuel : Nat) (task : Task) (tasks : List Task) : List Task :=
  match fuel with
  | 0 => [task]
  | fuel + 1 =>
    let dependentTasks := tasks.filter (fun t => t.dependencies.contains task.id)
    if dependentTasks.isEmpty then [task]
    else
      let longestPath := dependentTasks.foldl (fun longest t =>
        let path := findLongestPath fuel t tasks
        if longest.length < path.length then path else longest) []
      task :: longestPath

/-- `PhaseManager.calculateCriticalPath`: compare the longest forward chain
from every dependency-free root task and keep the longest (first wins on
ties).  The task map keyed by id is modelled by the task list itself. -/
def calculateCriticalPath (tasks : List Task) : List Task :=
  let rootTasks := tasks.filter (fun t => t.dependencies.isEmpty)
  rootTasks.foldl (fun criticalTasks rootTask =>
    let path := findLongestPath tasks.length rootTask tasks
    if criticalTasks.length < path.length then path else criticalTasks) []

/-! ## TaskDecomposer (src/services/task-decomposer.ts) -/

/-- A subtask template entry. -/
structure SubtaskTemplate where
  title : String
  description : String
  estimatedHours : Option Rat

/-- JavaScript `x || d` for an optional number: the default is used when the
value is absent or `0` (`0` is falsy). -/
def jsNumOr (x : Option Rat) (d : Rat) : Rat :=
  match x with
  | none => d
  | some v => if v = 0 then d else v

/-- The deterministic subtask id `{parentId}-sub-{n}`. -/
def mkSubId (parentId : String) (n : Nat) : String :=
  parentId ++ "-sub-" ++ toString n

/-- `TaskDecomposer.getPhaseSpecificTemplates`: the fixed phase+title keyed
subtask template table; `[]` when no entry exists. -/
def getPhaseSpecificTemplates (phase : ProjectPhase) (title : String) :
    List SubtaskTemplate :=
  match phase with
  | .SALES =>
    if title = "顧客ヒアリング" then
      [⟨"事前情報収集", "顧客情報の調査", some 1⟩,
       ⟨"ヒアリング実施", "顧客へのヒアリング", some 2⟩,
       ⟨"議事録作成", "ヒアリング内容の記録", some 1⟩]
    else if title = "見積書作成" then
      [⟨"原価計算", "材料費と人件費の算出", some 3⟩,
       ⟨"利益率設定", "適切な利益率の設定", some 1⟩,
       ⟨"見積書ドラフト", "見積書の初稿作成", some 2⟩,
       ⟨"上司レビュー", "見積内容の承認取得", some 1⟩,
       ⟨"見積書送付", "顧客への見積書送付", some 1⟩]
    else []
  | .DESIGN =>
    if title = "基本設計" then
      [⟨"要件整理", "顧客要件の整理と分析", some 8⟩,
       ⟨"コンセプト策定", "設計コンセプトの決定", some 12⟩,
       ⟨"基本仕様書作成", "基本仕様書のドラフト", some 16⟩,
       ⟨"顧客レビュー", "顧客への説明と承認", some 4⟩]
    else if title = "詳細設計" then
      [⟨"詳細仕様策定", "詳細な仕様の決定", some 24⟩,
       ⟨"設計計算", "必要な計算と検証", some 16⟩,
       ⟨"仕様書作成", "詳細仕様書の作成", some 32⟩,
       ⟨"技術レビュー", "技術的妥当性の検証", some 8⟩]
    else []
  | .MANUFACTURING =>
    if title = "製造実行" then
      [⟨"材料準備", "必要材料の準備と確認", some 8⟩,
       ⟨"加工作業", "部品の加工", some 80⟩,
       ⟨"組立作業", "部品の組立", some 40⟩,
       ⟨"調整作業", "機能調整と最適化", some 24⟩,
       ⟨"試運転", "動作確認と試運転", some 8⟩]
    else if title = "品質検査" then
      [⟨"外観検査", "外観の検査", some 2⟩,
       ⟨"寸法検査", "寸法の測定と検査", some 4⟩,
       ⟨"機能検査", "機能と性能の検査", some 6⟩,
       ⟨"検査記録作成", "検査結果の記録", some 2⟩,
       ⟨"不具合対応", "不具合の修正対応", some 2⟩]
    else []
  | .CONSTRUCTION =>
    if title = "施工実行" then
      [⟨"施工準備", "現場の準備作業", some 16⟩,
       ⟨"基礎工事", "基礎部分の施工", some 40⟩,
       ⟨"本体施工", "メイン部分の施工", some 100⟩,
       ⟨"仕上げ工事", "仕上げ作業", some 32⟩,
       ⟨"清掃", "現場の清掃", some 8⟩,
       ⟨"施工写真記録", "施工過程の写真記録", some 4⟩]
    else if title = "最終検査" then
      [⟨"施工品質確認", "施工品質の確認", some 3⟩,
       ⟨"安全性確認", "安全性の検査", some 2⟩,
       ⟨"機能テスト", "機能の動作確認", some 2⟩,
       ⟨"検査報告書作成", "検査結果のまとめ", some 1⟩]
    else []

/-- The four generic subtask templates of `getSubtaskTemplates` (local
`commonTemplates` in the source), with hours apportioned as 10%/70%/15%/5%
of the parent's estimate (`estimatedHours || 8`). -/
def commonSubtaskTemplates (parentTask : Task) : List SubtaskTemplate :=
  [⟨parentTask.title ++ " - 計画策定", "作業計画とスケジュールの策定",
    some (jsNumOr parentTask.estimatedHours 8 * (1 / 10))⟩,
   ⟨parentTask.title ++ " - 実行", "実際の作業実施",
    some (jsNumOr parentTask.estimatedHours 8 * (7 / 10))⟩,
   ⟨parentTask.title ++ " - レビュー・検証", "成果物のレビューと品質検証",
    some (jsNumOr parentTask.estimatedHours 8 * (15 / 100))⟩,
   ⟨parentTask.title ++ " - 完了報告", "作業完了報告と成果物の提出",
    some (jsNumOr parentTask.estimatedHours 8 * (5 / 100))⟩]

/-- `TaskDecomposer.getSubtaskTemplates`: the phase+title-specific list when
one exists, otherwise the four generic templates. -/
def getSubtaskTemplates (parentTask : Task) : List SubtaskTemplate :=
  let phaseSpecificTemplates :=
    getPhaseSpecificTemplates parentTask.phase parentTask.title
  if 0 < phaseSpecificTemplates.length then phaseSpecificTemplates
  else commonSubtaskTemplates parentTask

/-- `TaskDecomposer.derivePriority`: CRITICAL parents propagate CRITICAL;
otherwise the first subtask inherits the parent priority, the last one is
forced to LOW, and interior subtasks inherit. -/
def derivePriority (parentPriority : TaskPriority) (index : Nat) (total : Nat) :
    TaskPriority :=
  if parentPriority = TaskPriority.CRITICAL then TaskPriority.CRITICAL
  else if index = 0 then parentPriority
  else if index = total - 1 then TaskPriority.LOW
  else parentPriority

/-- `TaskDecomposer.generateSubtasks`: instantiate the first `maxSubtasks`
templates as subtasks `{parentId}-sub-{i+1}`, each non-first one depending
on its predecessor.  Note that `derivePriority` receives the length of the
full template list, not of the truncated one. -/
def generateSubtasks (parentTask : Task) (maxSubtasks : Nat) : List Task :=
  let subtaskTemplates := getSubtaskTemplates parentTask
  ((subtaskTemplates.take maxSubtasks).enum.map (fun p =>
    let index := p.1
    let template := p.2
    Task.mk
      { id := mkSubId parentTask.id (index + 1)
        title := template.title
        description := template.description
        phase := parentTask.phase
        status := TaskStatus.NOT_STARTED
        priority := derivePriority parentTask.priority index subtaskTemplates.length
        assignee := none
        assigneeId := none
        dependencies := if 0 < index then [mkSubId parentTask.id index] else []
        subtasks := []
        progress := 0
        estimatedHours := template.estimatedHours
        actualHours := none
        tags := parentTask.tags ++ ["subtask"] }))

/-- `TaskDecomposer.calculateProgress`: rounded mean of the subtasks'
progress; `0` when there are none. -/
def calculateProgress (subtasks : List Task) : Int :=
  if subtasks.length = 0 then 0
  else
    let totalProgress : Int := subtasks.foldl (fun sum t => sum + t.progress) 0
    jsRound ((totalProgress : Rat) / (subtasks.length : Rat))

/-- `TaskDecomposer.decomposeTask`: a task that already has subtasks is
returned unchanged; otherwise return a copy with generated subtasks and
recalculated progress.  The source's `depth` parameter defaults to `3`. -/
def decomposeTask (parentTask : Task) (depth : Nat := 3) : Task :=
  if 0 < parentTask.subtasks.length then parentTask
  else
    let subtasks := generateSubtasks parentTask depth
    Task.mk { parentTask.out with
      subtasks := subtasks
      progress := calculateProgress subtasks }

/-! ## MemberManager (src/services/member-manager.ts)

The `MemberManager` holds its members in a `Map<string, Member>` keyed by
member id; iteration (`getAllMembers`) yields values in insertion order.
The store is modelled as a `List Member` in that order, with id
distinctness assumed where a theorem relies on the keyed behaviour. -/

/-- `MemberManager.getRequiredSkillsForPhase`: the fixed phase → required
skill pair mapping. -/
def getRequiredSkillsForPhase (phase : ProjectPhase) : List MemberSkill :=
  match phase with
  | .SALES => [MemberSkill.SALES, MemberSkill.PROJECT_MANAGEMENT]
  | .DESIGN => [MemberSkill.DESIGN, MemberSkill.QUALITY_ASSURANCE]
  | .MANUFACTURING => [MemberSkill.MANUFACTURING, MemberSkill.QUALITY_ASSURANCE]
  | .CONSTRUCTION => [MemberSkill.CONSTRUCTION, MemberSkill.QUALITY_ASSURANCE]

/-- The skill-match component of the assignment score:
`(matched count / required count) * 50`. -/
def skillScore (member : Member) (requiredSkills : List MemberSkill) : Rat :=
  let matchingSkills := member.skills.filter (fun s => requiredSkills.contains s)
  ((matchingSkills.length : Rat) / (requiredSkills.length : Rat)) * 50

/-- The load component of the assignment score, from the load-to-capacity
rate `currentLoad / availability`. -/
def loadScore (loadRate : Rat) : Rat :=
  if loadRate < 7 / 10 then 30
  else if loadRate < 9 / 10 then 20
  else if loadRate < 1 then 10
  else 0

/-- The priority component of the assignment score: skill breadth for
CRITICAL tasks, remaining capacity otherwise. -/
def priorityScore (member : Member) (task : Task) (loadRate : Rat) : Rat :=
  if task.priority = TaskPriority.CRITICAL then
    if 3 ≤ member.skills.length then 20
    else if 2 ≤ member.skills.length then 10
    else 0
  else max 0 (20 - loadRate * 20)

/-- `MemberManager.calculateAssignmentScore`: skill + load + priority
components, rounded and clamped to at most 100.  The load-to-capacity rate
is exact rational division; a member with `availability = 0` produces the
JavaScript `NaN`/`Infinity` behaviour that this model does not cover, so
the theorems assume a positive availability. -/
def calculateAssignmentScore (member : Member) (task : Task)
    (requiredSkills : List MemberSkill) : Int :=
  let loadRate := member.currentLoad / member.availability
  min 100 (jsRound (skillScore member requiredSkills + loadScore loadRate +
    priorityScore member task loadRate))

/-- A scored recommendation (`TaskAssignmentRecommendation`); the
human-readable reason string and the estimated completion date are
presentation fields that never influence selection and are omitted. -/
structure Recommendation where
  member : Member
  score : Int

/-- `MemberManager.recommendMembersForTask`: score every member of the
store, keep strictly positive scores, sort descending by score
(JavaScript's sort is stable, as is `List.mergeSort`), take the top `n`. -/
def recommendMembersForTask (store : List Member) (task : Task)
    (topN : Nat) : List Recommendation :=
  let requiredSkills := getRequiredSkillsForPhase task.phase
  let recommendations := store.filterMap (fun member =>
    let score := calculateAssignmentScore member task requiredSkills
    if 0 < score then some ⟨member, score⟩ else none)
  (recommendations.mergeSort (fun a b => b.score ≤ a.score)).take topN

/-- `MemberManager.assignTaskToMember` on the store: append the task id to
the member's assignment list and add the task's estimated hours
(`estimatedHours || 0`, i.e. `0` when unset) to its current load.  The
source also stamps `task.assignee`; that mutation of the task object is
not visible to the remainder of a `balanceLoad` pass (the pass iterates
over a pre-computed list and recommendations never read `assignee`), so
the task is left to the caller here. -/
def assignTaskToMember (store : List Member) (memberId : String) (task : Task) :
    List Member :=
  store.map (fun m =>
    if m.id = memberId then
      { m with
        assignedTasks := m.assignedTasks ++ [task.id]
        currentLoad := m.currentLoad + (task.estimatedHours.getD 0) }
    else m)

/-- One iteration of the `balanceLoad` loop: take the top-1 recommendation
for the task and, when one exists, assign the task to it, recording the
`(memberId, taskId)` assignment event. -/
def balanceStep (acc : List Member × List (String × String)) (task : Task) :
    List Member × List (String × String) :=
  match recommendMembersForTask acc.1 task 1 with
  | [] => acc
  | r :: _ =>
    (assignTaskToMember acc.1 r.member.id task, acc.2 ++ [(r.member.id, task.id)])

/-- `MemberManager.balanceLoad`: assign every currently unassigned task
(`!t.assignee`, JavaScript falsiness) in input order, threading the member
store so later tasks see updated loads.  The source groups the assignment
events into a `Map<memberId, taskId[]>`; the flat event list in order is
returned instead, which retains the full information. -/
def balanceLoad (store : List Member) (tasks : List Task) :
    List Member × List (String × String) :=
  let unassignedTasks := tasks.filter (fun t => jsStrFalsy t.assignee)
  unassignedTasks.foldl balanceStep (store, [])

/-! ## Concrete fixtures used by witnesses and counterexamples -/

/-- A minimal phase record. -/
def basePhaseInfo : PhaseInfo :=
  { phase := .SALES, name := "営業", status := .NOT_STARTED, startDate := none,
    endDate := none, progress := 0, tasks := [], responsible := none }

/-- A minimal task; fixture tasks are record updates of this one. -/
def baseTask : Task := .mk
  { id := "t", title := "t", description := "", phase := .SALES,
    status := .NOT_STARTED, priority := .MEDIUM, assignee := none,
    assigneeId := none, dependencies := [], subtasks := [], progress := 0,
    estimatedHours := none, actualHours := none, tags := [] }

/-- A SALES task with the given id and progress. -/
def progressTask (id : String) (p : Int) : Task :=
  .mk { baseTask.out with id := id, progress := p }

/-- A SALES task with the given id and status. -/
def statusTask (id : String) (st : TaskStatus) : Task :=
  .mk { baseTask.out with id := id, status := st }

/-- A SALES task with the given id and dependency list. -/
def chainTask (id : String) (deps : List String) : Task :=
  .mk { baseTask.out with id := id, dependencies := deps }

/-- A minimal project with id `p` and empty task list. -/
def projP : Project :=
  { id := "p", name := "p", description := "", status := .active,
    phases := fun ph => { basePhaseInfo with phase := ph, name := phaseKey ph },
    tasks := [], startDate := 0, targetEndDate := 0 }

/-- The five-task progress fixture of the spec: [100,100,100,50,0]. -/
def fixtureTasks : List Task :=
  [progressTask "f1" 100, progressTask "f2" 100, progressTask "f3" 100,
   progressTask "f4" 50, progressTask "f5" 0]

/-- A phase containing one BLOCKED and one IN_PROGRESS task. -/
def mixedTasks : List Task :=
  [statusTask "b" .BLOCKED, statusTask "i" .IN_PROGRESS]

/-- A SALES task whose title matches no phase-specific template list and
whose estimated hours are present but `0`. -/
def genericParentTask : Task :=
  .mk { baseTask.out with id := "T1", title := "X", estimatedHours := some 0 }

/-- A task that already has a subtask. -/
def taskWithSubs : Task := .mk { baseTask.out with subtasks := [baseTask] }

/-- A member fixture: SALES/PM skills, weekly availability 40, no load. -/
def memberW : Member :=
  { id := "m1", name := "m1", email := "m1@example.com",
    skills := [.SALES, .PROJECT_MANAGEMENT], availability := 40,
    currentLoad := 0, assignedTasks := [] }

/-- A second member fixture with no skills and a full load. -/
def memberW2 : Member :=
  { id := "m2", name := "m2", email := "m2@example.com", skills := [],
    availability := 40, currentLoad := 40, assignedTasks := [] }

/-! ## Claim-side reference statements -/

/-- The dependency wiring asserted by the claim about
`generateStandardTasks`: each non-first task of a phase depends only on the
immediately preceding task of that phase, and only the first task of a
non-first phase carries the cross-phase dependency on the last task of the
preceding phase. -/
def claimOnlyDeps (pid : String) : List (List String) :=
  [[], [mkTaskId pid .SALES 1], [mkTaskId pid .SALES 2],
   [mkTaskId pid .SALES 3], [mkTaskId pid .SALES 4],
   [mkTaskId pid .SALES 5], [mkTaskId pid .DESIGN 1], [mkTaskId pid .DESIGN 2],
   [mkTaskId pid .DESIGN 3], [mkTaskId pid .DESIGN 4],
   [mkTaskId pid .DESIGN 5], [mkTaskId pid .MANUFACTURING 1],
   [mkTaskId pid .MANUFACTURING 2], [mkTaskId pid .MANUFACTURING 3],
   [mkTaskId pid .MANUFACTURING 4],
   [mkTaskId pid .MANUFACTURING 5], [mkTaskId pid .CONSTRUCTION 1],
   [mkTaskId pid .CONSTRUCTION 2], [mkTaskId pid .CONSTRUCTION 3],
   [mkTaskId pid .CONSTRUCTION 4], [mkTaskId pid .CONSTRUCTION 5]]

/-- The dependency wiring the code actually produces: additionally, every
task of every non-first phase depends on the last task of the preceding
phase. -/
def actualDeps (pid : String) : List (List String) :=
  [[], [mkTaskId pid .SALES 1], [mkTaskId pid .SALES 2],
   [mkTaskId pid .SALES 3], [mkTaskId pid .SALES 4],
   [mkTaskId pid .SALES 5],
   [mkTaskId pid .DESIGN 1, mkTaskId pid .SALES 5],
   [mkTaskId pid .DESIGN 2, mkTaskId pid .SALES 5],
   [mkTaskId pid .DESIGN 3, mkTaskId pid .SALES 5],
   [mkTaskId pid .DESIGN 4, mkTaskId pid .SALES 5],
   [mkTaskId pid .DESIGN 5],
   [mkTaskId pid .MANUFACTURING 1, mkTaskId pid .DESIGN 5],
   [mkTaskId pid .MANUFACTURING 2, mkTaskId pid .DESIGN 5],
   [mkTaskId pid .MANUFACTURING 3, mkTaskId pid .DESIGN 5],
   [mkTaskId pid .MANUFACTURING 4, mkTaskId pid .DESIGN 5],
   [mkTaskId pid .MANUFACTURING 5],
   [mkTaskId pid .CONSTRUCTION 1, mkTaskId pid .MANUFACTURING 5],
   [mkTaskId pid .CONSTRUCTION 2, mkTaskId pid .MANUFACTURING 5],
   [mkTaskId pid .CONSTRUCTION 3, mkTaskId pid .MANUFACTURING 5],
   [mkTaskId pid .CONSTRUCTION 4, mkTaskId pid .MANUFACTURING 5],
   [mkTaskId pid .CONSTRUCTION 5, mkTaskId pid .MANUFACTURING 5]]

/-- The standard-task id sequence, phase by phase in template order. -/
def standardIds (pid : String) : List String :=
  [mkTaskId pid .SALES 1, mkTaskId pid .SALES 2, mkTaskId pid .SALES 3,
   mkTaskId pid .SALES 4, mkTaskId pid .SALES 5,
   mkTaskId pid .DESIGN 1, mkTaskId pid .DESIGN 2, mkTaskId pid .DESIGN 3,
   mkTaskId pid .DESIGN 4, mkTaskId pid .DESIGN 5,
   mkTaskId pid .MANUFACTURING 1, mkTaskId pid .MANUFACTURING 2,
   mkTaskId pid .MANUFACTURING 3, mkTaskId pid .MANUFACTURING 4,
   mkTaskId pid .MANUFACTURING 5,
   mkTaskId pid .CONSTRUCTION 1, mkTaskId pid .CONSTRUCTION 2,
   mkTaskId pid .CONSTRUCTION 3, mkTaskId pid .CONSTRUCTION 4,
   mkTaskId pid .CONSTRUCTION 5, mkTaskId pid .CONSTRUCTION 6]

/-! ## Helper lemmas -/

@[simp]
theorem Task.out_mk (f : TaskF Task) : (Task.mk f).out = f := rfl

theorem jsRound_nonneg (x : Rat) (h : 0 ≤ x) : 0 ≤ jsRound x := by
  unfold jsRound
  exact Int.le_floor.mpr (by push_cast; linarith)

theorem jsRound_le (x : Rat) (n : Int) (h : x ≤ n) : jsRound x ≤ n := by
  unfold jsRound
  have hlt : x + 1 / 2 < ((n + 1 : Int) : Rat) := by push_cast; linarith
  exact Int.lt_add_one_iff.mp (Int.floor_lt.mpr hlt)

theorem foldl_add_eq_sum {α : Type} (f : α → Int) (l : List α) (a : Int) :
    l.foldl (fun sum t => sum + f t) a = a + (l.map f).sum := by
  induction l generalizing a with
  | nil => simp
  | cons t l ih => simp [ih, add_assoc]

theorem requiredSkills_length_pos (ph : ProjectPhase) :
    0 < (getRequiredSkillsForPhase ph).length := by
  cases ph <;> decide

theorem skillScore_nonneg (m : Member) (req : List MemberSkill) :
    0 ≤ skillScore m req := by
  unfold skillScore
  positivity

theorem skillScore_le_50 (m : Member) (req : List MemberSkill)
    (hnd : m.skills.Nodup) (hpos : 0 < req.length) :
    skillScore m req ≤ 50 := by
  unfold skillScore
  have hsub : (m.skills.filter (fun s => req.contains s)) ⊆ req := by
    intro x hx
    have := List.of_mem_filter hx
    exact List.elem_iff.mp this
  have hlen : (m.skills.filter (fun s => req.contains s)).length ≤ req.length :=
    ((hnd.filter _).subperm hsub).length_le
  have hq : ((m.skills.filter (fun s => req.contains s)).length : Rat) /
      (req.length : Rat) ≤ 1 := by
    rw [div_le_one (by exact_mod_cast hpos)]
    exact_mod_cast hlen
  calc ((m.skills.filter (fun s => req.contains s)).length : Rat) /
      (req.length : Rat) * 50 ≤ 1 * 50 := by
        exact mul_le_mul_of_nonneg_right hq (by norm_num)
    _ = 50 := by norm_num

theorem loadScore_nonneg (r : Rat) : 0 ≤ loadScore r := by
  unfold loadScore
  split_ifs <;> norm_num

theorem loadScore_le_30 (r : Rat) : loadScore r ≤ 30 := by
  unfold loadScore
  split_ifs <;> norm_num

theorem loadScore_eq_zero (r : Rat) (h : 1 ≤ r) : loadScore r = 0 := by
  unfold loadScore
  split_ifs with h1 h2 h3 <;> linarith

theorem priorityScore_nonneg (m : Member) (t : Task) (r : Rat) :
    0 ≤ priorityScore m t r := by
  unfold priorityScore
  split_ifs <;> simp [le_max_iff]

theorem priorityScore_le_20 (m : Member) (t : Task) (r : Rat) (h : 0 ≤ r) :
    priorityScore m t r ≤ 20 := by
  unfold priorityScore
  split_ifs <;> try norm_num
  exact h

theorem priorityScore_overload (m : Member) (t : Task) (r : Rat)
    (h : 1 ≤ r) (hnc : t.priority ≠ TaskPriority.CRITICAL) :
    priorityScore m t r = 0 := by
  unfold priorityScore
  rw [if_neg hnc]
  have : 20 - r * 20 ≤ 0 := by linarith
  simpa [max_eq_left_iff] using this

theorem assignTaskToMember_loads (store : List Member) (mid : String) (t : Task) :
    (assignTaskToMember store mid t).map Member.currentLoad =
      store.map (fun m => if m.id = mid then
        m.currentLoad + t.estimatedHours.getD 0 else m.currentLoad) := by
  unfold assignTaskToMember
  rw [List.map_map]
  apply List.map_congr_left
  intro m _
  by_cases h : m.id = mid <;> simp [h]

theorem balanceStep_cases (st : List Member) (asgs : List (String × String))
    (t : Task) :
    balanceStep (st, asgs) t = (st, asgs) ∨
    ∃ mid, (balanceStep (st, asgs) t).2 = asgs ++ [(mid, t.id)] ∧
      ((balanceStep (st, asgs) t).1).map Member.currentLoad =
        st.map (fun m => if m.id = mid then
          m.currentLoad + t.estimatedHours.getD 0 else m.currentLoad) := by
  cases hrec : recommendMembersForTask st t 1 with
  | nil =>
    left
    simp [balanceStep, hrec]
  | cons r rest =>
    right
    exact ⟨r.member.id, by simp [balanceStep, hrec],
      by simp [balanceStep, hrec, assignTaskToMember_loads]⟩

theorem balanceFold_events (l : List Task) (st : List Member)
    (asgs : List (String × String)) :
    ∃ evs, (l.foldl balanceStep (st, asgs)).2 = asgs ++ evs ∧
      (evs.map Prod.snd).Sublist (l.map Task.id) := by
  induction l generalizing st asgs with
  | nil => exact ⟨[], by simp, by simp⟩
  | cons t l ih =>
    rw [List.foldl_cons]
    rcases balanceStep_cases st asgs t with h | ⟨mid, h2, _⟩
    · rw [h]
      rcases ih st asgs with ⟨evs, he, hs⟩
      exact ⟨evs, he, hs.cons _⟩
    · have hX : balanceStep (st, asgs) t =
          ((balanceStep (st, asgs) t).1, asgs ++ [(mid, t.id)]) := by
        rw [← h2]
      rw [hX]
      rcases ih (balanceStep (st, asgs) t).1 (asgs ++ [(mid, t.id)]) with
        ⟨evs, he, hs⟩
      refine ⟨(mid, t.id) :: evs, ?_, hs.cons₂ _⟩
      rw [he, List.append_assoc]
      simp

theorem canTransition_iff (p : ProjectPhase) (tasks : List Task) :
    canTransitionToNextPhase p tasks = true ↔
      ∀ t ∈ tasks, t.phase = p → t.status = TaskStatus.COMPLETED := by
  simp only [canTransitionToNextPhase, List.all_eq_true, List.mem_filter,
    decide_eq_true_eq, and_imp]

theorem transition_nonterminal (config : WorkflowConfig) (project : Project)
    (cur next : ProjectPhase) (f : ProjectPhase → List String → Bool) (now : Nat)
    (h1 : PHASE_ORDER.indexOf cur ≠ PHASE_ORDER.length - 1)
    (h2 : PHASE_ORDER.getD (PHASE_ORDER.indexOf cur + 1) cur = next)
    (h3 : cur ≠ ProjectPhase.CONSTRUCTION) :
    ((transitionToNextPhase config project cur (some f) now).2.success = false ↔
      (cur = ProjectPhase.CONSTRUCTION ∨
       (∃ t ∈ project.tasks, t.phase = cur ∧ t.status ≠ TaskStatus.COMPLETED) ∨
       (config.requireApproval = true ∧
        ∃ l, config.approvers next = some l ∧ f next l = false))) ∧
    ((transitionToNextPhase config project cur (some f) now).2.success = true →
      ((transitionToNextPhase config project cur (some f) now).1.phases
        next).startDate = some now ∧
      (transitionToNextPhase config project cur (some f) now).1.tasks =
        project.tasks ∧
      (transitionToNextPhase config project cur (some f) now).2.nextPhase =
        some next ∧
      (∀ l, config.requireApproval = true → config.approvers next = some l →
        f next l = true)) := by
  unfold transitionToNextPhase
  rw [if_neg h1]
  simp only [h2]
  cases hc : canTransitionToNextPhase cur project.tasks with
  | false =>
    have hex : ∃ t ∈ project.tasks, t.phase = cur ∧
        t.status ≠ TaskStatus.COMPLETED := by
      have hn : ¬ (canTransitionToNextPhase cur project.tasks = true) := by
        simp [hc]
      rw [canTransition_iff] at hn
      push_neg at hn
      exact hn
    simp [hex]
  | true =>
    simp only [hc]
    by_cases hreq : config.requireApproval = true ∧
        (config.approvers next).isSome
    · obtain ⟨l, hl⟩ := Option.isSome_iff_exists.mp hreq.2
      cases hf : f next l with
      | false =>
        simp [hreq, hl, hf, h3]
      | true =>
        simp [hreq, hl, hf, h3]
        intro t ht hph
        exact (canTransition_iff cur project.tasks).mp hc t ht hph
    · have happ : (if config.requireApproval = true ∧
          (config.approvers next).isSome then
            f next ((config.approvers next).getD []) else true) = true := by
        rw [if_neg hreq]
      simp [happ, hreq, h3]
      exact ⟨⟨fun t ht hph => (canTransition_iff cur project.tasks).mp hc t ht hph,
        fun hr x hx => absurd ⟨hr, by simp [hx]⟩ hreq⟩,
        fun l hr hl => absurd ⟨hr, by simp [hl]⟩ hreq⟩

/-! ## Claim theorems -/

/-- Claim C3: overall project progress is the rounded mean of the four
phase progresses; phase progress is the rounded mean of the phase's tasks'
progress when the phase has tasks and `0` otherwise; and the fixture with
task progresses `[100,100,100,50,0]` yields phase progress `70`. -/
theorem progress_means_spec (project : Project) (phase : ProjectPhase)
    (tasks : List Task)
    (_hrange : ∀ ph, 0 ≤ (project.phases ph).progress ∧
      (project.phases ph).progress ≤ 100) :
    calculateOverallProgress project =
      jsRound ((((project.phases .SALES).progress + (project.phases .DESIGN).progress +
        (project.phases .MANUFACTURING).progress +
        (project.phases .CONSTRUCTION).progress : Int) : Rat) / 4) ∧
    (tasks.filter (fun u => decide (u.phase = phase)) ≠ [] →
      calculatePhaseProgress phase tasks =
        jsRound (((((tasks.filter (fun u => decide (u.phase = phase))).map
            Task.progress).sum : Int) : Rat) /
          ((tasks.filter (fun u => decide (u.phase = phase))).length : Rat))) ∧
    (tasks.filter (fun u => decide (u.phase = phase)) = [] →
      calculatePhaseProgress phase tasks = 0) ∧
    calculatePhaseProgress .SALES fixtureTasks = 70 := by
  refine ⟨?_, ?_, ?_, ?_⟩
  · simp only [calculateOverallProgress, PHASE_ORDER, List.map, List.foldl,
      List.length]
    norm_num
  · intro hne
    simp only [calculatePhaseProgress]
    rw [if_neg (by simpa [List.length_eq_zero] using hne)]
    rw [foldl_add_eq_sum Task.progress]
    simp
  · intro hnil
    simp [calculatePhaseProgress, hnil]
  · norm_num [calculatePhaseProgress, fixtureTasks, progressTask, baseTask,
      Task.phase, Task.out, Task.progress, jsRound, List.filter, List.foldl]

/-- Witness for C3 at the concrete fixture project and task list. -/
theorem progress_means_spec_witness :
    calculateOverallProgress projP =
      jsRound ((((projP.phases .SALES).progress + (projP.phases .DESIGN).progress +
        (projP.phases .MANUFACTURING).progress +
        (projP.phases .CONSTRUCTION).progress : Int) : Rat) / 4) ∧
    (fixtureTasks.filter (fun u => decide (u.phase = .SALES)) ≠ [] →
      calculatePhaseProgress .SALES fixtureTasks =
        jsRound (((((fixtureTasks.filter (fun u => decide (u.phase = .SALES))).map
            Task.progress).sum : Int) : Rat) /
          ((fixtureTasks.filter (fun u => decide (u.phase = .SALES))).length : Rat))) ∧
    (fixtureTasks.filter (fun u => decide (u.phase = .SALES)) = [] →
      calculatePhaseProgress .SALES fixtureTasks = 0) ∧
    calculatePhaseProgress .SALES fixtureTasks = 70 :=
  progress_means_spec projP .SALES fixtureTasks (by intro ph; cases ph <;> simp [projP, basePhaseInfo])

/-- Claim C6: `updatePhaseStatus` derives the phase status by the stated
precedence (all COMPLETED → COMPLETED; any IN_PROGRESS → IN_PROGRESS; any
BLOCKED → BLOCKED; any COMPLETED → IN_PROGRESS; otherwise NOT_STARTED);
in particular a phase with both a BLOCKED and an IN_PROGRESS task is
IN_PROGRESS. -/
theorem updatePhaseStatus_spec (phaseInfo : PhaseInfo) (tasks : List Task) :
    ((updatePhaseStatus phaseInfo tasks).status =
      (if ∀ t ∈ tasks, t.phase = phaseInfo.phase →
          t.status = TaskStatus.COMPLETED then TaskStatus.COMPLETED
       else if ∃ t ∈ tasks, t.phase = phaseInfo.phase ∧
          t.status = TaskStatus.IN_PROGRESS then TaskStatus.IN_PROGRESS
       else if ∃ t ∈ tasks, t.phase = phaseInfo.phase ∧
          t.status = TaskStatus.BLOCKED then TaskStatus.BLOCKED
       else if ∃ t ∈ tasks, t.phase = phaseInfo.phase ∧
          t.status = TaskStatus.COMPLETED then TaskStatus.IN_PROGRESS
       else TaskStatus.NOT_STARTED)) ∧
    (updatePhaseStatus basePhaseInfo mixedTasks).status =
      TaskStatus.IN_PROGRESS := by
  refine ⟨?_, by decide⟩
  have hc : ((tasks.filter (fun u => decide (u.phase = phaseInfo.phase))).all
      (fun u => decide (u.status = TaskStatus.COMPLETED)) = true) ↔
      (∀ t ∈ tasks, t.phase = phaseInfo.phase → t.status = TaskStatus.COMPLETED) := by
    simp only [List.all_eq_true, List.mem_filter, decide_eq_true_eq, and_imp]
  simp only [updatePhaseStatus, List.any_eq_true, List.mem_filter,
    decide_eq_true_eq, and_assoc]
  rw [if_congr hc rfl rfl]

/-- Claim C9: `decomposeTask` is idempotent — the second application returns
the first result unchanged, and a task that already has subtasks is
returned as is. -/
theorem decomposeTask_idempotent (t : Task) (d : Nat) :
    decomposeTask (decomposeTask t d) d = decomposeTask t d ∧
    (0 < t.subtasks.length → decomposeTask t d = t) := by
  constructor
  · by_cases h : 0 < t.subtasks.length
    · simp [decomposeTask, h]
    · have e1 : decomposeTask t d = Task.mk { t.out with
          subtasks := generateSubtasks t d
          progress := calculateProgress (generateSubtasks t d) } := by
        rw [decomposeTask, if_neg h]
      rw [e1]
      by_cases h2 : 0 < (generateSubtasks t d).length
      · simp [decomposeTask, Task.subtasks, Task.out, h2]
      · have hsnil : generateSubtasks t d = [] := by
          simpa [List.length_eq_zero] using h2
        have hgen : generateSubtasks (Task.mk { t.out with
            subtasks := ([] : List Task)
            progress := calculateProgress [] }) d =
            generateSubtasks t d := rfl
        rw [hsnil]
        simp [decomposeTask, Task.subtasks, hgen, hsnil]
  · intro h
    simp [decomposeTask, h]

/-- Witness for C9 at a task that already has a subtask. -/
theorem decomposeTask_idempotent_witness :
    decomposeTask (decomposeTask taskWithSubs 3) 3 = decomposeTask taskWithSubs 3 ∧
    decomposeTask taskWithSubs 3 = taskWithSubs :=
  ⟨(decomposeTask_idempotent taskWithSubs 3).1,
   (decomposeTask_idempotent taskWithSubs 3).2 (by decide)⟩

/-- Counterexample for C4: on a subtask-free task with a generic title, the
default-depth `decomposeTask` produces 3 subtasks, not 4; moreover with an
estimate that is present but `0` the subtask hours are based on the default
8 hours, not on the stated 10% of the parent's estimate. -/
theorem decomposeTask_generic_counterexample :
    ¬ ((decomposeTask genericParentTask).subtasks.length = 4) ∧
    (decomposeTask genericParentTask).subtasks.length = 3 ∧
    (decomposeTask genericParentTask).subtasks.map Task.estimatedHours =
      [some (4 / 5 : Rat), some (28 / 5 : Rat), some (6 / 5 : Rat)] := by
  refine ⟨?_, ?_, ?_⟩ <;>
    · simp [decomposeTask, genericParentTask, baseTask, generateSubtasks,
        getSubtaskTemplates, getPhaseSpecificTemplates, commonSubtaskTemplates,
        jsNumOr, Task.estimatedHours, Task.subtasks, Task.out, mkSubId,
        List.enum, List.enumFrom]
      try norm_num

/-- Claim C4 as amended: on a subtask-free task whose phase+title has no
phase-specific template list, `decomposeTask` with depth `d` returns a copy
with exactly `min d 4` subtasks — the first `min d 4` of the four generic
templates (planning, execution, review/verification, completion report) —
whose estimated hours are 10%, 70%, 15% and 5% of the parent's estimate
(`8` when the estimate is unset or `0`), with ids `{parentId}-sub-{i+1}`
and each subtask except the first depending on the immediately preceding
subtask. -/
theorem decomposeTask_generic_spec (t : Task) (depth : Nat)
    (h1 : t.subtasks = [])
    (h2 : getPhaseSpecificTemplates t.phase t.title = []) :
    (decomposeTask t depth).id = t.id ∧
    (decomposeTask t depth).title = t.title ∧
    (decomposeTask t depth).phase = t.phase ∧
    (decomposeTask t depth).subtasks.length = min depth 4 ∧
    (decomposeTask t depth).subtasks.map Task.id =
      (List.range (min depth 4)).map (fun i => mkSubId t.id (i + 1)) ∧
    (decomposeTask t depth).subtasks.map Task.title =
      ([t.title ++ " - 計画策定", t.title ++ " - 実行",
        t.title ++ " - レビュー・検証", t.title ++ " - 完了報告"]).take depth ∧
    (decomposeTask t depth).subtasks.map Task.estimatedHours =
      ([some (jsNumOr t.estimatedHours 8 * (1 / 10)),
        some (jsNumOr t.estimatedHours 8 * (7 / 10)),
        some (jsNumOr t.estimatedHours 8 * (15 / 100)),
        some (jsNumOr t.estimatedHours 8 * (5 / 100))]).take depth ∧
    (decomposeTask t depth).subtasks.map Task.dependencies =
      (List.range (min depth 4)).map
        (fun i => if i = 0 then [] else [mkSubId t.id i]) := by
  have e1 : decomposeTask t depth = Task.mk { t.out with
      subtasks := generateSubtasks t depth
      progress := calculateProgress (generateSubtasks t depth) } := by
    rw [decomposeTask, if_neg (by simp [Task.subtasks] at h1 ⊢; simp [h1])]
  have e2 : getSubtaskTemplates t = commonSubtaskTemplates t := by
    simp [getSubtaskTemplates, h2]
  have e3 : (commonSubtaskTemplates t).length = 4 := rfl
  rcases depth with _ | _ | _ | _ | d <;>
    simp [e1, e2, e3, generateSubtasks, commonSubtaskTemplates, Task.subtasks,
      Task.id, Task.title, Task.phase, Task.estimatedHours, Task.dependencies,
      Task.out, List.range_succ, mkSubId, List.enum, List.enumFrom,
      List.take_succ_cons, Function.comp]

/-- Witness for C4 at the concrete generic-title fixture and depth 3. -/
theorem decomposeTask_generic_spec_witness :
    (decomposeTask genericParentTask 3).id = genericParentTask.id ∧
    (decomposeTask genericParentTask 3).title = genericParentTask.title ∧
    (decomposeTask genericParentTask 3).phase = genericParentTask.phase ∧
    (decomposeTask genericParentTask 3).subtasks.length = min 3 4 ∧
    (decomposeTask genericParentTask 3).subtasks.map Task.id =
      (List.range (min 3 4)).map (fun i => mkSubId genericParentTask.id (i + 1)) ∧
    (decomposeTask genericParentTask 3).subtasks.map Task.title =
      ([genericParentTask.title ++ " - 計画策定", genericParentTask.title ++ " - 実行",
        genericParentTask.title ++ " - レビュー・検証",
        genericParentTask.title ++ " - 完了報告"]).take 3 ∧
    (decomposeTask genericParentTask 3).subtasks.map Task.estimatedHours =
      ([some (jsNumOr genericParentTask.estimatedHours 8 * (1 / 10)),
        some (jsNumOr genericParentTask.estimatedHours 8 * (7 / 10)),
        some (jsNumOr genericParentTask.estimatedHours 8 * (15 / 100)),
        some (jsNumOr genericParentTask.estimatedHours 8 * (5 / 100))]).take 3 ∧
    (decomposeTask genericParentTask 3).subtasks.map Task.dependencies =
      (List.range (min 3 4)).map
        (fun i => if i = 0 then [] else [mkSubId genericParentTask.id i]) :=
  decomposeTask_generic_spec genericParentTask 3 rfl rfl

/-- Claim C2: with an approval callback supplied, `transitionToNextPhase`
returns a structured non-success result (never a raised fault) exactly when
the current phase is the last phase, or some task of the current phase is
not COMPLETED, or approval is required, approvers are configured for the
target phase and the callback — invoked with the target phase and that
approver list — returns false; on success the target phase's start date is
stamped to `now`, the task list is unchanged, the target phase is returned,
and any configured required approval was granted by the callback. -/
theorem transitionToNextPhase_spec (config : WorkflowConfig) (project : Project)
    (currentPhase : ProjectPhase) (f : ProjectPhase → List String → Bool)
    (now : Nat) :
    ((transitionToNextPhase config project currentPhase (some f) now).2.success =
        false ↔
      (currentPhase = ProjectPhase.CONSTRUCTION ∨
       (∃ t ∈ project.tasks, t.phase = currentPhase ∧
          t.status ≠ TaskStatus.COMPLETED) ∨
       (config.requireApproval = true ∧
        ∃ l, config.approvers (nextPhaseInOrder currentPhase) = some l ∧
          f (nextPhaseInOrder currentPhase) l = false))) ∧
    ((transitionToNextPhase config project currentPhase (some f) now).2.success =
        true →
      ((transitionToNextPhase config project currentPhase (some f) now).1.phases
        (nextPhaseInOrder currentPhase)).startDate = some now ∧
      (transitionToNextPhase config project currentPhase (some f) now).1.tasks =
        project.tasks ∧
      (transitionToNextPhase config project currentPhase (some f) now).2.nextPhase =
        some (nextPhaseInOrder currentPhase) ∧
      (∀ l, config.requireApproval = true →
        config.approvers (nextPhaseInOrder currentPhase) = some l →
        f (nextPhaseInOrder currentPhase) l = true)) := by
  cases currentPhase with
  | SALES =>
    exact transition_nonterminal config project ProjectPhase.SALES
      ProjectPhase.DESIGN f now (by decide) (by decide) (by decide)
  | DESIGN =>
    exact transition_nonterminal config project ProjectPhase.DESIGN
      ProjectPhase.MANUFACTURING f now (by decide) (by decide) (by decide)
  | MANUFACTURING =>
    exact transition_nonterminal config project ProjectPhase.MANUFACTURING
      ProjectPhase.CONSTRUCTION f now (by decide) (by decide) (by decide)
  | CONSTRUCTION =>
    have e : transitionToNextPhase config project ProjectPhase.CONSTRUCTION
        (some f) now = (project, ⟨false, none, "既に最終フェーズです"⟩) := rfl
    simp [e]

/-- Claim C7: for a member with a duplicate-free skill set, positive
availability and non-negative current load, the assignment score is in
`[0, 100]`; at a load-to-capacity rate of at least `1.0` on a non-CRITICAL
task it is at most 70; and with none of the phase's required skills it is
at most 50. -/
theorem assignmentScore_bounds (m : Member) (t : Task)
    (h1 : m.skills.Nodup) (h2 : 0 < m.availability) (h3 : 0 ≤ m.currentLoad) :
    (0 ≤ calculateAssignmentScore m t (getRequiredSkillsForPhase t.phase) ∧
      calculateAssignmentScore m t (getRequiredSkillsForPhase t.phase) ≤ 100) ∧
    (1 ≤ m.currentLoad / m.availability → t.priority ≠ TaskPriority.CRITICAL →
      calculateAssignmentScore m t (getRequiredSkillsForPhase t.phase) ≤ 70) ∧
    ((∀ sk ∈ m.skills, sk ∉ getRequiredSkillsForPhase t.phase) →
      calculateAssignmentScore m t (getRequiredSkillsForPhase t.phase) ≤ 50) := by
  have hr0 : 0 ≤ m.currentLoad / m.availability := div_nonneg h3 h2.le
  have hs0 := skillScore_nonneg m (getRequiredSkillsForPhase t.phase)
  have hs50 := skillScore_le_50 m (getRequiredSkillsForPhase t.phase) h1
    (requiredSkills_length_pos t.phase)
  have hl0 := loadScore_nonneg (m.currentLoad / m.availability)
  have hl30 := loadScore_le_30 (m.currentLoad / m.availability)
  have hp0 := priorityScore_nonneg m t (m.currentLoad / m.availability)
  have hp20 := priorityScore_le_20 m t (m.currentLoad / m.availability) hr0
  refine ⟨⟨?_, ?_⟩, ?_, ?_⟩
  · simp only [calculateAssignmentScore]
    refine le_min (by norm_num) (jsRound_nonneg _ (by linarith))
  · simp only [calculateAssignmentScore]
    exact min_le_left _ _
  · intro hrate hnc
    simp only [calculateAssignmentScore]
    refine le_trans (min_le_right _ _) ?_
    rw [loadScore_eq_zero _ hrate, priorityScore_overload m t _ hrate hnc]
    refine le_trans (jsRound_le _ 50 (by push_cast; linarith)) (by norm_num)
  · intro hno
    have hfil : m.skills.filter
        (fun s => (getRequiredSkillsForPhase t.phase).contains s) = [] := by
      rw [List.filter_eq_nil_iff]
      intro sk hsk
      simpa [List.elem_iff] using hno sk hsk
    have hs : skillScore m (getRequiredSkillsForPhase t.phase) = 0 := by
      unfold skillScore
      rw [hfil]
      norm_num
    simp only [calculateAssignmentScore]
    refine le_trans (min_le_right _ _) ?_
    exact jsRound_le _ 50 (by rw [hs]; push_cast; linarith)


/-- Witness for C7 at a concrete member (two distinct skills, availability
40, zero load) and a SALES task. -/
theorem assignmentScore_bounds_witness :
    (0 ≤ calculateAssignmentScore memberW baseTask
        (getRequiredSkillsForPhase baseTask.phase) ∧
      calculateAssignmentScore memberW baseTask
        (getRequiredSkillsForPhase baseTask.phase) ≤ 100) ∧
    (1 ≤ memberW.currentLoad / memberW.availability →
      baseTask.priority ≠ TaskPriority.CRITICAL →
      calculateAssignmentScore memberW baseTask
        (getRequiredSkillsForPhase baseTask.phase) ≤ 70) ∧
    ((∀ sk ∈ memberW.skills, sk ∉ getRequiredSkillsForPhase baseTask.phase) →
      calculateAssignmentScore memberW baseTask
        (getRequiredSkillsForPhase baseTask.phase) ≤ 50) :=
  assignmentScore_bounds memberW baseTask (by decide) (by norm_num [memberW])
    (by norm_num [memberW])

/-- Claim C8: over any member store, `balanceLoad` on a task list with
distinct ids assigns only tasks with no assignee, in input order (the
sequence of assigned task ids is a sublist of the unassigned input ids in
order), assigns no task id twice, and every single assignment step either
leaves the store unchanged (no positive-score candidate) or adds exactly
the task's estimated hours (`0` when unset) to the chosen member's current
load, leaving every other member's load unchanged. -/
theorem balanceLoad_spec (store : List Member) (tasks : List Task)
    (h : (tasks.map Task.id).Nodup) :
    ((balanceLoad store tasks).2.map Prod.snd).Sublist
      ((tasks.filter (fun u => jsStrFalsy u.assignee)).map Task.id) ∧
    ((balanceLoad store tasks).2.map Prod.snd).Nodup ∧
    (∀ (st : List Member) (asgs : List (String × String)) (t : Task),
      balanceStep (st, asgs) t = (st, asgs) ∨
      ∃ mid, (balanceStep (st, asgs) t).2 = asgs ++ [(mid, t.id)] ∧
        ((balanceStep (st, asgs) t).1).map Member.currentLoad =
          st.map (fun m => if m.id = mid then
            m.currentLoad + t.estimatedHours.getD 0 else m.currentLoad)) := by
  obtain ⟨evs, he, hs⟩ :=
    balanceFold_events (tasks.filter (fun u => jsStrFalsy u.assignee)) store []
  have he2 : (balanceLoad store tasks).2 = evs := by
    simpa [balanceLoad] using he
  refine ⟨?_, ?_, fun st asgs t => balanceStep_cases st asgs t⟩
  · rw [he2]
    exact hs
  · rw [he2]
    refine hs.nodup ?_
    have hsub : ((tasks.filter (fun u => jsStrFalsy u.assignee)).map
        Task.id).Sublist (tasks.map Task.id) :=
      (List.filter_sublist _).map _
    exact hsub.nodup h

/-- Witness for C8 at a two-member store and two unassigned tasks with
distinct ids. -/
theorem balanceLoad_spec_witness :
    ((balanceLoad [memberW, memberW2]
        [chainTask "A" [], chainTask "B" []]).2.map Prod.snd).Sublist
      (([chainTask "A" [], chainTask "B" []].filter
        (fun u => jsStrFalsy u.assignee)).map Task.id) ∧
    ((balanceLoad [memberW, memberW2]
        [chainTask "A" [], chainTask "B" []]).2.map Prod.snd).Nodup ∧
    (∀ (st : List Member) (asgs : List (String × String)) (t : Task),
      balanceStep (st, asgs) t = (st, asgs) ∨
      ∃ mid, (balanceStep (st, asgs) t).2 = asgs ++ [(mid, t.id)] ∧
        ((balanceStep (st, asgs) t).1).map Member.currentLoad =
          st.map (fun m => if m.id = mid then
            m.currentLoad + t.estimatedHours.getD 0 else m.currentLoad)) :=
  balanceLoad_spec [memberW, memberW2] [chainTask "A" [], chainTask "B" []]
    (by decide)

/-- Counterexample for C1: the generated dependency wiring is not the
claimed one.  At project id `p`, the second DESIGN task depends on both
`p-design-1` and `p-sales-5`, while the claim allows only `p-design-1`
(the cross-phase dependency is claimed for first tasks of a phase only). -/
theorem generateStandardTasks_counterexample :
    ¬ ∀ (project : Project),
      (generateStandardTasks project).map Task.dependencies =
        claimOnlyDeps project.id := by
  intro hcl
  exact absurd (hcl projP) (by decide)

/-- Claim C1 as amended: for every project, `generateStandardTasks` yields
the tasks of each phase in template order with deterministic ids, and each
task's dependency list is exactly: the immediately preceding task of its
phase when the task is not the first of its phase, plus — for every task of
every phase except the first phase — the last task of the immediately
preceding phase. -/
theorem generateStandardTasks_spec (project : Project) :
    (generateStandardTasks project).map Task.id = standardIds project.id ∧
    (generateStandardTasks project).map Task.dependencies =
      actualDeps project.id ∧
    (generateStandardTasks project).map Task.title =
      (PHASE_ORDER.map (fun ph =>
        (PHASE_TEMPLATES ph).map TaskTemplate.name)).flatten ∧
    (generateStandardTasks project).map Task.phase =
      (PHASE_ORDER.map (fun ph =>
        (PHASE_TEMPLATES ph).map (fun _ => ph))).flatten :=
  ⟨rfl, rfl, rfl, rfl⟩

/-- Claim C5: on a linear four-task dependency chain (B depends only on A,
C only on B, D only on C, and A has no dependencies), with the four ids
distinct, `calculateCriticalPath` returns exactly `[A, B, C, D]`. -/
theorem calculateCriticalPath_chain (a b c d : Task)
    (ha : a.dependencies = []) (hb : b.dependencies = [a.id])
    (hc : c.dependencies = [b.id]) (hd : d.dependencies = [c.id])
    (hab : a.id ≠ b.id) (hac : a.id ≠ c.id) (had : a.id ≠ d.id)
    (hbc : b.id ≠ c.id) (hbd : b.id ≠ d.id) (hcd : c.id ≠ d.id) :
    calculateCriticalPath [a, b, c, d] = [a, b, c, d] := by
  simp [calculateCriticalPath, findLongestPath, ha, hb, hc, hd,
    hab, hac, had, hbc, hbd, hcd, Ne.symm hab, Ne.symm hac, Ne.symm had,
    Ne.symm hbc, Ne.symm hbd, Ne.symm hcd]

/-- Witness for C5 at the concrete chain A → B → C → D. -/
theorem calculateCriticalPath_chain_witness :
    calculateCriticalPath
      [chainTask "A" [], chainTask "B" ["A"], chainTask "C" ["B"],
       chainTask "D" ["C"]] =
      [chainTask "A" [], chainTask "B" ["A"], chainTask "C" ["B"],
       chainTask "D" ["C"]] :=
  calculateCriticalPath_chain (chainTask "A" []) (chainTask "B" ["A"])
    (chainTask "C" ["B"]) (chainTask "D" ["C"]) rfl rfl rfl rfl
    (by decide) (by decide) (by decide) (by decide) (by decide) (by decide)

/-- Claim C10: a phase with no tasks passes the transition eligibility gate
and is derived COMPLETED with progress 0. -/
theorem emptyPhase_spec (phaseInfo : PhaseInfo) (tasks : List Task)
    (h : ∀ t ∈ tasks, t.phase ≠ phaseInfo.phase) :
    canTransitionToNextPhase phaseInfo.phase tasks = true ∧
    (updatePhaseStatus phaseInfo tasks).status = TaskStatus.COMPLETED ∧
    (updatePhaseStatus phaseInfo tasks).progress = 0 := by
  have hfil : tasks.filter (fun u => decide (u.phase = phaseInfo.phase)) = [] := by
    rw [List.filter_eq_nil_iff]
    intro t ht
    simpa using h t ht
  refine ⟨?_, ?_, ?_⟩
  · simp [canTransitionToNextPhase, hfil]
  · simp [updatePhaseStatus, hfil]
  · simp [updatePhaseStatus, calculatePhaseProgress, hfil]

/-- Witness for C10: a DESIGN-phase record over tasks that are all SALES. -/
theorem emptyPhase_spec_witness :
    canTransitionToNextPhase { basePhaseInfo with phase := .DESIGN }.phase
      fixtureTasks = true ∧
    (updatePhaseStatus { basePhaseInfo with phase := .DESIGN } fixtureTasks).status =
      TaskStatus.COMPLETED ∧
    (updatePhaseStatus { basePhaseInfo with phase := .DESIGN } fixtureTasks).progress =
      0 :=
  emptyPhase_spec { basePhaseInfo with phase := .DESIGN } fixtureTasks (by decide)

end Membry
